import Mathlib

/-!
Smart money dashboard: the browser front end (frontend/app.js)

A shallow embedding of the rendering script.  The page is a record of the DOM
parts the script writes (status line, bias summary, premium/discount bar,
details panel), the chart with its series, and the script's module variables
(`chart`, `candleSeries`, `liquiditySeries`, `fvgTopSeries`,
`fvgBottomSeries`).  Every function of the script is a state transformer.

Conventions of the embedding:
* JavaScript numbers are exact rationals; number formatting (`toFixed`,
  number-to-string in template literals) is a host function passed in `Host`.
* `new Date(x).getTime()` is the integer count of milliseconds the field holds.
* A series object is identified by a number drawn from a counter that never
  repeats (object identity); module variables hold these identities.
* The charting library is total: every call on a chart or a series returns.
  The visual options of `LightweightCharts.createChart` are not represented.
* A handler runs from start to end without another handler in between.
-/

namespace SmartMoneyDashboard

/-! JavaScript values (parsed JSON of a failure body, loosely typed fields) -/

/-- A parsed JSON value, plus `undefined`. -/
inductive JsVal where
  | undefined : JsVal
  | null : JsVal
  | bool (b : Bool) : JsVal
  | num (q : ℚ) : JsVal
  | str (s : String) : JsVal
  | arr (items : List JsVal) : JsVal
  | obj (fields : List (String × JsVal)) : JsVal

/-- JavaScript truthiness (`ToBoolean`). -/
def JsVal.truthy : JsVal → Bool
  | .undefined => false
  | .null => false
  | .bool b => b
  | .num q => decide (q ≠ 0)
  | .str s => decide (s ≠ "")
  | .arr _ => true
  | .obj _ => true

/-- Strict equality `v === "lit"` against a string literal. -/
def JsVal.isStr : JsVal → String → Bool
  | .str s, lit => decide (s = lit)
  | _, _ => false

/-- Functions of the JavaScript host that the script calls and that are not
part of it. -/
structure Host where
  /-- The method `Number.prototype.toFixed(digits)`. -/
  toFixed : ℚ → Nat → String
  /-- Number to string conversion inside a template literal. -/
  numToString : ℚ → String
  /-- The conversion `String(v)` for a value that is not a string. -/
  jsToString : JsVal → String
  /-- The method `String.prototype.toUpperCase`. -/
  toUpperCase : String → String
  /-- The message of the `TypeError` raised when a property of `null` or
  `undefined` is read. -/
  typeErrorMessage : String

/-- Property read `v.detail`: throws on `null` and `undefined`, finds the own
property of an object, and is `undefined` on every other value. -/
def JsVal.detail (h : Host) : JsVal → Except String JsVal
  | .undefined => .error h.typeErrorMessage
  | .null => .error h.typeErrorMessage
  | .obj fields => .ok ((fields.lookup "detail").getD .undefined)
  | _ => .ok .undefined

/-- The `message` of `new Error(v)` for a value `v` that is not `undefined`. -/
def errorMessage (h : Host) : JsVal → String
  | .str s => s
  | v => h.jsToString v

/-! The response data (section 6 of the specification) -/

structure LiquidityLevel where
  type : String
  price : ℚ

structure FairValueGap where
  type : String
  timestamp_a : Int
  timestamp_c : Int
  gap_high : ℚ
  gap_low : ℚ

structure StructureEvent where
  type : String
  price : ℚ

structure TradeSetup where
  direction : String
  entry : ℚ
  stop : ℚ
  tp1 : ℚ
  tp2 : ℚ
  rr_tp1 : ℚ
  rr_tp2 : ℚ
  rationale : Option (List String)

/-- One echoed candle; `open_` is the field `open`. -/
structure Candle where
  time : Int
  open_ : ℚ
  high : ℚ
  low : ℚ
  close : ℚ

/-- The body of a successful response.  A field the script guards with
`|| []` or `|| 0` is optional; `bias` and `premium_discount` are compared with
`===` only and may be any value. -/
structure Data where
  bias : JsVal
  bias_score : Option ℚ
  bias_explanation : Option (List String)
  premium_discount : JsVal
  discount_fraction : ℚ
  ohlcv : Option (List Candle)
  liquidity_levels : Option (List LiquidityLevel)
  fair_value_gaps : Option (List FairValueGap)
  bos_events : Option (List StructureEvent)
  choch_events : Option (List StructureEvent)
  trade_setups : Option (List TradeSetup)

/-! The page -/

/-- A DOM element: tag, class, the markup assigned through `innerHTML` (kept
unparsed), the text assigned through `textContent`, and the appended
children. -/
inductive El where
  | mk (tag : String) (className : String) (html : String) (text : String)
      (children : List El) : El

def El.tag : El → String
  | .mk t _ _ _ _ => t

def El.className : El → String
  | .mk _ c _ _ _ => c

def El.html : El → String
  | .mk _ _ h _ _ => h

def El.text : El → String
  | .mk _ _ _ t _ => t

def El.children : El → List El
  | .mk _ _ _ _ cs => cs

/-- A point of a line series. -/
structure LinePoint where
  time : ℚ
  value : ℚ

/-- A point of the candlestick series. -/
structure CandlePoint where
  time : ℚ
  open_ : ℚ
  high : ℚ
  low : ℚ
  close : ℚ

/-- The options a series is created with. -/
inductive SeriesOptions where
  | candlestick (upColor downColor : String) (borderVisible : Bool)
      (wickUpColor wickDownColor : String) : SeriesOptions
  | line (color : String) (lineWidth : Nat) (dotted : Bool) : SeriesOptions

/-- What `setData` last stored in a series. -/
inductive SeriesData where
  | candles (pts : List CandlePoint) : SeriesData
  | line (pts : List LinePoint) : SeriesData

/-- A series of the chart. -/
structure Series where
  id : Nat
  options : SeriesOptions
  data : SeriesData

/-- The chart: its series in creation order and the number of `fitContent`
calls it has received. -/
structure Chart where
  series : List Series
  fitContentCalls : Nat

/-- The calls `chart.addCandlestickSeries` and `chart.addLineSeries`: a new series with no
data, identified by `id`. -/
def Chart.addSeries (ch : Chart) (id : Nat) (options : SeriesOptions)
    (empty : SeriesData) : Chart :=
  { ch with series := ch.series ++ [{ id := id, options := options, data := empty }] }

/-- The call `series.setData(data)` on the series identified by `id`. -/
def Chart.setData (ch : Chart) (id : Nat) (data : SeriesData) : Chart :=
  { ch with series := ch.series.map (fun s => if s.id = id then { s with data := data } else s) }

/-- The call `chart.removeSeries(series)`. -/
def Chart.removeSeries (ch : Chart) (id : Nat) : Chart :=
  { ch with series := ch.series.filter (fun s => decide (s.id ≠ id)) }

/-- The call `chart.timeScale().fitContent()`. -/
def Chart.fitContent (ch : Chart) : Chart :=
  { ch with fitContentCalls := ch.fitContentCalls + 1 }

/-- The series of the chart identified by `id`. -/
def Chart.find (ch : Chart) (id : Nat) : Option Series :=
  ch.series.find? (fun s => decide (s.id = id))

/-- The page and the module variables of the script. -/
structure State where
  /-- The text `statusEl.textContent`. -/
  status : String
  /-- The children of `biasSummaryEl`. -/
  biasSummary : List El
  /-- The style property `pdFillEl.style.left`. -/
  pdFillLeft : String
  /-- The text `pdLabelEl.textContent`. -/
  pdLabel : String
  /-- The children of `detailsEl`. -/
  details : List El
  /-- The chosen file `fileInput.files[0]`, by file name. -/
  file : Option String
  /-- The module variable `chart`. -/
  chart : Option Chart
  candleSeries : Option Nat
  liquiditySeries : Option Nat
  fvgTopSeries : List Nat
  fvgBottomSeries : List Nat
  /-- The identity the next created series receives. -/
  nextId : Nat

/-- The state when the script has been evaluated and no handler has run. -/
def State.initial : State :=
  { status := "", biasSummary := [], pdFillLeft := "", pdLabel := "", details := [],
    file := none, chart := none, candleSeries := none, liquiditySeries := none,
    fvgTopSeries := [], fvgBottomSeries := [], nextId := 0 }

/-! The functions of the script -/

def setStatus (message : String) (st : State) : State :=
  { st with status := message }

def createChart (st : State) : State :=
  let chart : Chart := { series := [], fitContentCalls := 0 }
  let candleId := st.nextId
  let chart := chart.addSeries candleId
    (.candlestick "#22c55e" "#ef4444" false "#22c55e" "#ef4444") (.candles [])
  let liquidityId := st.nextId + 1
  let chart := chart.addSeries liquidityId (.line "#eab308" 1 false) (.line [])
  { st with chart := some chart, candleSeries := some candleId,
            liquiditySeries := some liquidityId, nextId := st.nextId + 2 }

def clearFvgSeries (st : State) : State :=
  match st.chart with
  | none => st
  | some chart =>
    let chart := st.fvgTopSeries.foldl Chart.removeSeries chart
    let chart := st.fvgBottomSeries.foldl Chart.removeSeries chart
    { st with chart := some chart, fvgTopSeries := [], fvgBottomSeries := [] }

/-- The function `Math.floor`. -/
def mathFloor (q : ℚ) : ℚ := ((⌊q⌋ : Int) : ℚ)

/-- The value of `new Date(ts).getTime() / 1000` for a timestamp of `ms` milliseconds. -/
def msToSeconds (ms : Int) : ℚ := (ms : ℚ) / 1000

/-- The call `xs.slice(-k)`: the last `k` entries, all of them when there are fewer. -/
def sliceLast (k : Nat) (xs : List α) : List α :=
  xs.drop (xs.length - k)

/-- The body of the `forEach` callback of `renderFvgs` (lines 71-98); the
caller has checked that the chart exists. -/
def drawFvg (st : State) (fvg : FairValueGap) : State :=
  match st.chart with
  | none => st
  | some chart =>
    let t1 := mathFloor (msToSeconds fvg.timestamp_a)
    let t2 := mathFloor (msToSeconds fvg.timestamp_c)
    let topSeries := st.nextId
    let chart := chart.addSeries topSeries (.line "rgba(56, 189, 248, 0.7)" 1 false) (.line [])
    let bottomSeries := st.nextId + 1
    let chart := chart.addSeries bottomSeries (.line "rgba(56, 189, 248, 0.3)" 1 true) (.line [])
    let chart := chart.setData topSeries
      (.line [{ time := t1, value := fvg.gap_high }, { time := t2, value := fvg.gap_high }])
    let chart := chart.setData bottomSeries
      (.line [{ time := t1, value := fvg.gap_low }, { time := t2, value := fvg.gap_low }])
    { st with chart := some chart, nextId := st.nextId + 2,
              fvgTopSeries := st.fvgTopSeries ++ [topSeries],
              fvgBottomSeries := st.fvgBottomSeries ++ [bottomSeries] }

def renderFvgs (fvgs : List FairValueGap) (st : State) : State :=
  let st := clearFvgSeries st
  if st.chart.isNone || fvgs.length = 0 then st
  else
    let maxFvgs := 8
    let recentFvgs := sliceLast maxFvgs fvgs
    recentFvgs.foldl drawFvg st

/-- A `li` element whose `textContent` is `text`. -/
def liText (text : String) : El := .mk "li" "" "" text []

/-- Lines 106-121 of `renderBias`: the class and the text of the bias label. -/
def biasLabel (bias : JsVal) : String × String :=
  if bias.isStr "strong_bullish" then ("bias-bullish", "Strong Bullish")
  else if bias.isStr "bullish" then ("bias-bullish", "Bullish")
  else if bias.isStr "strong_bearish" then ("bias-bearish", "Strong Bearish")
  else if bias.isStr "bearish" then ("bias-bearish", "Bearish")
  else ("bias-neutral", "Neutral")

/-- Lines 134-139 of `renderBias`: the text of the tag. -/
def biasTagText (premium_discount : JsVal) : String :=
  if premium_discount.isStr "discount" then "In discount"
  else if premium_discount.isStr "premium" then "In premium"
  else "At equilibrium"

def renderBias (h : Host) (data : Data) (st : State) : State :=
  let bias := data.bias
  let explanation := data.bias_explanation.getD []
  let score := data.bias_score.getD 0
  let labelClass := (biasLabel bias).1
  let labelText := (biasLabel bias).2
  let label := El.mk "div" "bias-label" "" labelText []
  let scoreP := El.mk "p" "" "" ("Bias score " ++ h.toFixed score 2) []
  let tag := El.mk "span" ("bias-tag " ++ labelClass) "" (biasTagText data.premium_discount) []
  let explList := El.mk "ul" "" "" "" (explanation.map liText)
  { st with biasSummary :=
      [label, scoreP, tag] ++ (if explanation.length ≠ 0 then [explList] else []) }

/-- Line 161 of `renderPremiumDiscount`. -/
def leftPercent (fraction : ℚ) : ℚ := max 0 (min 100 (fraction * 100))

/-- Lines 164-169 of `renderPremiumDiscount`. -/
def zoneText (zone : JsVal) : String :=
  if zone.isStr "discount" then "Discount zone"
  else if zone.isStr "premium" then "Premium zone"
  else "Equilibrium"

def renderPremiumDiscount (h : Host) (data : Data) (st : State) : State :=
  let fraction := data.discount_fraction
  let zone := data.premium_discount
  let percent := h.toFixed (fraction * 100) 1
  { st with
      pdFillLeft := h.numToString (leftPercent fraction) ++ "%",
      pdLabel := zoneText zone ++ "  swing position " ++ percent ++ "% from low to high" }

/-- A section of the details panel: a `div` whose `innerHTML` was set to
`heading` and to which the list `ul` was appended. -/
def detailSection (heading : String) (items : List El) : El :=
  .mk "div" "" heading "" [.mk "ul" "" "" "" items]

/-- The `li` of one trade setup (lines 262-274). -/
def tradeItem (h : Host) (t : TradeSetup) : El :=
  let sub := El.mk "div" "trade-notes" "" (String.intercalate "  " (t.rationale.getD [])) []
  .mk "li" ""
    (h.toUpperCase t.direction ++ " | " ++
      "Entry " ++ h.toFixed t.entry 2 ++ " | SL " ++ h.toFixed t.stop 2 ++ " | " ++
      "TP1 " ++ h.toFixed t.tp1 2 ++ " (R:R " ++ h.toFixed t.rr_tp1 2 ++ ") | " ++
      "TP2 " ++ h.toFixed t.tp2 2 ++ " (R:R " ++ h.toFixed t.rr_tp2 2 ++ ")")
    "" [sub]

def renderDetails (h : Host) (data : Data) (st : State) : State :=
  let liquidity := data.liquidity_levels.getD []
  let fvgs := data.fair_value_gaps.getD []
  let bos := data.bos_events.getD []
  let choch := data.choch_events.getD []
  let tradeSetups := data.trade_setups.getD []
  let liqList :=
    if liquidity.length = 0 then [liText "None detected in recent window"]
    else (sliceLast 10 liquidity).map
      (fun l => liText (l.type ++ " at " ++ h.toFixed l.price 2))
  let liqSection := detailSection "<h3>Liquidity levels</h3>" liqList
  let fvgList :=
    if fvgs.length = 0 then [liText "None detected in recent window"]
    else (sliceLast 10 fvgs).map
      (fun f => liText (f.type ++ " gap " ++ h.toFixed f.gap_low 2 ++ " to " ++
        h.toFixed f.gap_high 2))
  let fvgSection := detailSection "<h3>Fair value gaps</h3>" fvgList
  let bosList :=
    if bos.length = 0 then [liText "No major structure breaks detected"]
    else (sliceLast 10 bos).map
      (fun b => liText (b.type ++ " near " ++ h.toFixed b.price 2))
  let bosSection := detailSection "<h3>Structure events</h3>" bosList
  let chochList :=
    if choch.length = 0 then [liText "No CHoCH detected"]
    else (sliceLast 10 choch).map
      (fun c => liText (c.type ++ " at " ++ h.toFixed c.price 2))
  let chochSection := detailSection "<h3>Change of character</h3>" chochList
  let tradeList :=
    if tradeSetups.length = 0 then [liText "No clean setups based on current rules"]
    else tradeSetups.map (tradeItem h)
  let tradesSection := detailSection "<h3>Trade setups</h3>" tradeList
  let sections := [liqSection, fvgSection, bosSection, chochSection, tradesSection]
  { st with details := sections }

/-- The point `renderChart` makes of a candle (lines 293-299). -/
def candlePoint (c : Candle) : CandlePoint :=
  { time := msToSeconds c.time, open_ := c.open_, high := c.high, low := c.low,
    close := c.close }

/-- The call `handle.setData(data)` through a module variable holding a series. -/
def setSeriesData (handle : Option Nat) (data : SeriesData) (st : State) : State :=
  match st.chart, handle with
  | some chart, some id => { st with chart := some (chart.setData id data) }
  | _, _ => st

def renderChart (data : Data) (st : State) : State :=
  let st := if st.chart.isNone then createChart st else st
  let ohlcv := data.ohlcv.getD []
  if ohlcv.length = 0 then st
  else
    let candleData := ohlcv.map candlePoint
    let st := setSeriesData st.candleSeries (.candles candleData) st
    let liquidity := data.liquidity_levels.getD []
    let st :=
      match liquidity.getLast? with
      | some lastLiq =>
        let liqLine : List LinePoint :=
          candleData.map (fun c => { time := c.time, value := lastLiq.price })
        setSeriesData st.liquiditySeries (.line liqLine) st
      | none => setSeriesData st.liquiditySeries (.line []) st
    let st := renderFvgs (data.fair_value_gaps.getD []) st
    { st with chart := st.chart.map Chart.fitContent }

/-- What a `fetch` followed by `res.json()` comes to: the request itself
fails, or a response arrives whose `ok` flag is false or true and whose body
either fails to parse (with the parser's message) or parses. -/
inductive FetchOutcome where
  | rejected (message : String) : FetchOutcome
  | failure (body : Except String JsVal) : FetchOutcome
  | success (body : Except String Data) : FetchOutcome

/-- The `try` block shared by lines 320-334 and 346-363, from the `fetch`
on: the final state, or the message of the exception thrown. -/
def requestAndRender (h : Host) (done : String) (res : FetchOutcome) (st : State) :
    Except String State :=
  match res with
  | .rejected message => .error message
  | .failure (.error message) => .error message
  | .failure (.ok err) =>
    match err.detail h with
    | .error message => .error message
    | .ok detail =>
      .error (errorMessage h (if detail.truthy then detail else .str "Request failed"))
  | .success (.error message) => .error message
  | .success (.ok data) =>
    let st := setStatus done st
    let st := renderBias h data st
    let st := renderPremiumDiscount h data st
    let st := renderDetails h data st
    .ok (renderChart data st)

def analyzeSample (h : Host) (res : FetchOutcome) (st : State) : State :=
  let st := setStatus "Requesting analysis for sample data" st
  match requestAndRender h "Sample analysis complete" res st with
  | .ok st => st
  | .error message => setStatus ("Error  " ++ message) st

def analyzeFile (h : Host) (res : FetchOutcome) (st : State) : State :=
  match st.file with
  | none => setStatus "Please choose a CSV file first" st
  | some _ =>
    let st := setStatus "Uploading file and requesting analysis" st
    match requestAndRender h "File analysis complete" res st with
    | .ok st => st
    | .error message => setStatus ("Error  " ++ message) st

/-! Observations used in the statements -/

/-- The text of the bias label, the first child of the bias summary. -/
def State.labelText (st : State) : Option String :=
  (st.biasSummary.get? 0).map El.text

/-- The class of the zone tag, the third child of the bias summary. -/
def State.tagClass (st : State) : Option String :=
  (st.biasSummary.get? 2).map El.className

/-- The text of the zone tag, the third child of the bias summary. -/
def State.tagText (st : State) : Option String :=
  (st.biasSummary.get? 2).map El.text

/-- The items of the list of the `i`-th section of the details panel. -/
def State.sectionItems (st : State) (i : Nat) : List El :=
  match st.details.get? i with
  | some (.mk _ _ _ _ [ul]) => ul.children
  | _ => []

/-- The data of the series identified by `id` in the chart of the page. -/
def State.seriesData (st : State) (id : Nat) : Option SeriesData :=
  st.chart.bind (fun ch => (ch.find id).map Series.data)

/-- The options and the data of the series identified by `id` in the chart
of the page. -/
def State.seriesView (st : State) (id : Nat) : Option (SeriesOptions × SeriesData) :=
  st.chart.bind (fun ch => (ch.find id).map (fun s => (s.options, s.data)))

/-- The data `renderFvgs` gives the top line of a gap (lines 86-89). -/
def fvgTopData (fvg : FairValueGap) : SeriesData :=
  .line [{ time := mathFloor (msToSeconds fvg.timestamp_a), value := fvg.gap_high },
         { time := mathFloor (msToSeconds fvg.timestamp_c), value := fvg.gap_high }]

/-- The data `renderFvgs` gives the bottom line of a gap (lines 91-94). -/
def fvgBottomData (fvg : FairValueGap) : SeriesData :=
  .line [{ time := mathFloor (msToSeconds fvg.timestamp_a), value := fvg.gap_low },
         { time := mathFloor (msToSeconds fvg.timestamp_c), value := fvg.gap_low }]

/-- The times of the points of a series. -/
def SeriesData.times : SeriesData → List ℚ
  | .candles pts => pts.map CandlePoint.time
  | .line pts => pts.map LinePoint.time

/-- The two series `renderFvgs` creates for each gap of a list, the first
being identified by `n`. -/
def fvgLines : Nat → List FairValueGap → List Series
  | _, [] => []
  | n, g :: gs =>
    { id := n, options := .line "rgba(56, 189, 248, 0.7)" 1 false, data := fvgTopData g } ::
    { id := n + 1, options := .line "rgba(56, 189, 248, 0.3)" 1 true, data := fvgBottomData g } ::
    fvgLines (n + 2) gs

/-- The identities `n`, `n + 2`, ... of `k` series created alternately. -/
def alternateIds : Nat → Nat → List Nat
  | _, 0 => []
  | n, k + 1 => n :: alternateIds (n + 2) k

/-- Series identities are fresh: every series of the chart was created before
the counter reached its present value. -/
def State.Fresh (st : State) : Prop :=
  ∀ ch, st.chart = some ch → ∀ s ∈ ch.series, s.id < st.nextId

/-- The states reached from `createChart`, run with the gap lists as the
script initialises them, by calls of `clearFvgSeries` and `renderFvgs`. -/
inductive Reachable : State → Prop where
  | start (st : State) (htop : st.fvgTopSeries = []) (hbottom : st.fvgBottomSeries = []) :
      Reachable (createChart st)
  | clear (st : State) (hst : Reachable st) : Reachable (clearFvgSeries st)
  | render (st : State) (fvgs : List FairValueGap) (hst : Reachable st) :
      Reachable (renderFvgs fvgs st)

/-- The identities of the series the chart of the page holds. -/
def State.chartIds (st : State) : List Nat :=
  match st.chart with
  | none => []
  | some ch => ch.series.map Series.id

/-- A gap with the given timestamps in milliseconds. -/
def gapAt (a c : Int) : FairValueGap :=
  { type := "bullish", timestamp_a := a, timestamp_c := c, gap_high := 13, gap_low := 10 }

/-- A candle at the given time in milliseconds. -/
def candleAt (t : Int) : Candle :=
  { time := t, open_ := 10, high := 12, low := 9, close := 11 }

/-- The shape the chart and the module variables have in every reachable
state: the chart holds the candle series, the liquidity series and the lines
of at most eight gaps, and the two gap lists hold the identities of those
lines. -/
def State.Shape (st : State) : Prop :=
  ∃ (ch : Chart) (cs ls : Series) (n : Nat) (gs : List FairValueGap),
    st.chart = some ch ∧ ch.series = cs :: ls :: fvgLines n gs ∧
    st.candleSeries = some cs.id ∧ st.liquiditySeries = some ls.id ∧
    cs.id < ls.id ∧ ls.id < n ∧
    st.fvgTopSeries = alternateIds n gs.length ∧
    st.fvgBottomSeries = alternateIds (n + 1) gs.length ∧
    gs.length ≤ 8 ∧ st.nextId = n + 2 * gs.length

/-- Nine gaps in report order, most recent first. -/
def nineGapsRecentFirst : List FairValueGap :=
  [gapAt 9000 11000, gapAt 8000 10000, gapAt 7000 9000, gapAt 6000 8000, gapAt 5000 7000,
    gapAt 4000 6000, gapAt 3000 5000, gapAt 2000 4000, gapAt 1000 3000]

/-- A response whose three candles lie half a second after the full second
and whose one gap is anchored at the first and the third of them. -/
def halfSecondData : Data :=
  { bias := .str "neutral", bias_score := some 0, bias_explanation := some [],
    premium_discount := .str "equilibrium", discount_fraction := 1 / 2,
    ohlcv := some [candleAt 1500, candleAt 2500, candleAt 3500],
    liquidity_levels := some [], fair_value_gaps := some [gapAt 1500 3500],
    bos_events := some [], choch_events := some [], trade_setups := some [] }

/-! Theorems -/

theorem sliceLast_eq_drop_min (k : Nat) (xs : List α) :
    sliceLast k xs = xs.drop (xs.length - min xs.length k) := by
  unfold sliceLast
  congr 1
  omega

theorem sliceLast_length (k : Nat) (xs : List α) :
    (sliceLast k xs).length = min xs.length k := by
  unfold sliceLast
  simp only [List.length_drop]
  omega

/-- C4: the left position of the fill marker is the number `leftPercent f`
written before a percent sign; it lies in [0, 100], equals 100 f for f in
[0, 1] (so 0 at f = 0 and 100 at f = 1), and never decreases when f grows. -/
theorem renderPremiumDiscount_left_position (h : Host) (data : Data) (st : State) :
    (renderPremiumDiscount h data st).pdFillLeft
        = h.numToString (leftPercent data.discount_fraction) ++ "%" ∧
      (∀ f : ℚ, 0 ≤ leftPercent f ∧ leftPercent f ≤ 100) ∧
      (∀ f : ℚ, 0 ≤ f → f ≤ 1 → leftPercent f = 100 * f) ∧
      leftPercent 0 = 0 ∧ leftPercent 1 = 100 ∧
      (∀ f g : ℚ, f ≤ g → leftPercent f ≤ leftPercent g) := by
  refine ⟨rfl, ?_, ?_, ?_, ?_, ?_⟩
  · intro f
    unfold leftPercent
    refine ⟨le_max_left _ _, max_le (by norm_num) (min_le_left _ _)⟩
  · intro f h0 h1
    unfold leftPercent
    rw [min_eq_right (by linarith), max_eq_right (by linarith)]
    ring
  · unfold leftPercent
    norm_num
  · unfold leftPercent
    norm_num
  · intro f g hfg
    unfold leftPercent
    exact max_le_max le_rfl (min_le_min le_rfl (by linarith))

theorem renderPremiumDiscount_left_position_witness :
    leftPercent (1 / 4) = 100 * (1 / 4) ∧ leftPercent (1 / 4) ≤ leftPercent (1 / 2) :=
  let h : Host := ⟨fun _ _ => "", fun _ => "", fun _ => "", fun s => s, ""⟩
  let d : Data := ⟨.null, none, none, .null, 1 / 4, none, none, none, none, none, none⟩
  ⟨(renderPremiumDiscount_left_position h d State.initial).2.2.1 (1 / 4)
      (by norm_num) (by norm_num),
   (renderPremiumDiscount_left_position h d State.initial).2.2.2.2.2 (1 / 4) (1 / 2)
      (by norm_num)⟩

theorem biasLabel_str (s : String) :
    biasLabel (.str s) =
      if s = "strong_bullish" then ("bias-bullish", "Strong Bullish")
      else if s = "bullish" then ("bias-bullish", "Bullish")
      else if s = "strong_bearish" then ("bias-bearish", "Strong Bearish")
      else if s = "bearish" then ("bias-bearish", "Bearish")
      else ("bias-neutral", "Neutral") := by
  simp [biasLabel, JsVal.isStr]

theorem biasLabel_not_str (v : JsVal) (hv : ∀ s, v ≠ .str s) :
    biasLabel v = ("bias-neutral", "Neutral") := by
  cases v with
  | str s => exact absurd rfl (hv s)
  | _ => rfl

theorem renderBias_tagClass (h : Host) (data : Data) (st : State) :
    (renderBias h data st).tagClass = some ("bias-tag " ++ (biasLabel data.bias).1) := rfl

theorem renderBias_labelText (h : Host) (data : Data) (st : State) :
    (renderBias h data st).labelText = some (biasLabel data.bias).2 := rfl

theorem biasLabel_class_cases (v : JsVal) :
    ((v = .str "strong_bullish" ∨ v = .str "bullish") ∧ (biasLabel v).1 = "bias-bullish") ∨
    ((v = .str "strong_bearish" ∨ v = .str "bearish") ∧ (biasLabel v).1 = "bias-bearish") ∨
    ((v ≠ .str "strong_bullish" ∧ v ≠ .str "bullish" ∧ v ≠ .str "strong_bearish" ∧
        v ≠ .str "bearish") ∧ biasLabel v = ("bias-neutral", "Neutral")) := by
  by_cases hs : ∃ s, v = .str s
  · obtain ⟨s, rfl⟩ := hs
    rw [biasLabel_str]
    by_cases h1 : s = "strong_bullish"
    · left; simp [h1]
    by_cases h2 : s = "bullish"
    · left; simp [h2]
    by_cases h3 : s = "strong_bearish"
    · right; left; simp [h3]
    by_cases h4 : s = "bearish"
    · right; left; simp [h4]
    right; right
    simp [h1, h2, h3, h4]
  · have hv : ∀ s, v ≠ .str s := fun s e => hs ⟨s, e⟩
    right; right
    exact ⟨⟨hv _, hv _, hv _, hv _⟩, biasLabel_not_str v hv⟩

/-- C5: the five bias labels are shown as five pairwise distinct texts; the
tag class is bias-bullish exactly for strong_bullish and bullish, bias-bearish
exactly for strong_bearish and bearish, bias-neutral for every other value;
every value outside the five labels is shown as "Neutral". -/
theorem renderBias_label_mapping (h : Host) (data : Data) (st : State) :
    (["strong_bullish", "bullish", "neutral", "bearish", "strong_bearish"].map
        (fun b => (renderBias h { data with bias := .str b } st).labelText)
      = [some "Strong Bullish", some "Bullish", some "Neutral", some "Bearish",
          some "Strong Bearish"]) ∧
    ["Strong Bullish", "Bullish", "Neutral", "Bearish", "Strong Bearish"].Nodup ∧
    ((renderBias h data st).tagClass = some "bias-tag bias-bullish" ↔
      (data.bias = .str "strong_bullish" ∨ data.bias = .str "bullish")) ∧
    ((renderBias h data st).tagClass = some "bias-tag bias-bearish" ↔
      (data.bias = .str "strong_bearish" ∨ data.bias = .str "bearish")) ∧
    ((data.bias ≠ .str "strong_bullish" ∧ data.bias ≠ .str "bullish" ∧
        data.bias ≠ .str "strong_bearish" ∧ data.bias ≠ .str "bearish") →
      (renderBias h data st).tagClass = some "bias-tag bias-neutral") ∧
    ((data.bias ≠ .str "strong_bullish" ∧ data.bias ≠ .str "bullish" ∧
        data.bias ≠ .str "neutral" ∧ data.bias ≠ .str "strong_bearish" ∧
        data.bias ≠ .str "bearish") →
      (renderBias h data st).labelText = some "Neutral") := by
  refine ⟨?_, by decide, ?_, ?_, ?_, ?_⟩
  · simp only [List.map, renderBias_labelText, biasLabel_str]
    simp
  · rw [renderBias_tagClass]
    rcases biasLabel_class_cases data.bias with ⟨hv, hc⟩ | ⟨hv, hc⟩ | ⟨hv, hc⟩
    · rw [hc]; exact ⟨fun _ => hv, fun _ => by decide⟩
    · rw [hc]
      refine ⟨fun e => absurd e (by decide), fun e => ?_⟩
      rcases hv with hv | hv <;> rcases e with e | e <;> rw [hv] at e <;>
        simp at e
    · rw [hc]
      refine ⟨fun e => absurd e (by decide), fun e => ?_⟩
      rcases e with e | e
      · exact absurd e hv.1
      · exact absurd e hv.2.1
  · rw [renderBias_tagClass]
    rcases biasLabel_class_cases data.bias with ⟨hv, hc⟩ | ⟨hv, hc⟩ | ⟨hv, hc⟩
    · rw [hc]
      refine ⟨fun e => absurd e (by decide), fun e => ?_⟩
      rcases hv with hv | hv <;> rcases e with e | e <;> rw [hv] at e <;>
        simp at e
    · rw [hc]; exact ⟨fun _ => hv, fun _ => by decide⟩
    · rw [hc]
      refine ⟨fun e => absurd e (by decide), fun e => ?_⟩
      rcases e with e | e
      · exact absurd e hv.2.2.1
      · exact absurd e hv.2.2.2
  · intro hn
    rw [renderBias_tagClass]
    rcases biasLabel_class_cases data.bias with ⟨hv, _⟩ | ⟨hv, _⟩ | ⟨_, hc⟩
    · rcases hv with hv | hv
      · exact absurd hv hn.1
      · exact absurd hv hn.2.1
    · rcases hv with hv | hv
      · exact absurd hv hn.2.2.1
      · exact absurd hv hn.2.2.2
    · rw [hc]; decide
  · intro hn
    rw [renderBias_labelText]
    rcases biasLabel_class_cases data.bias with ⟨hv, _⟩ | ⟨hv, _⟩ | ⟨_, hc⟩
    · rcases hv with hv | hv
      · exact absurd hv hn.1
      · exact absurd hv hn.2.1
    · rcases hv with hv | hv
      · exact absurd hv hn.2.2.2.1
      · exact absurd hv hn.2.2.2.2
    · rw [hc]

theorem renderBias_label_mapping_witness :
    (renderBias ⟨fun _ _ => "", fun _ => "", fun _ => "", fun s => s, ""⟩
        ⟨.str "sideways", none, none, .null, 0, none, none, none, none, none, none⟩
        State.initial).tagClass = some "bias-tag bias-neutral" ∧
    (renderBias ⟨fun _ _ => "", fun _ => "", fun _ => "", fun s => s, ""⟩
        ⟨.str "sideways", none, none, .null, 0, none, none, none, none, none, none⟩
        State.initial).labelText = some "Neutral" :=
  ⟨(renderBias_label_mapping _ _ _).2.2.2.2.1 (by simp),
   (renderBias_label_mapping _ _ _).2.2.2.2.2 (by simp)⟩

theorem zone_cases (v : JsVal) :
    (v = .str "discount" ∧ biasTagText v = "In discount" ∧ zoneText v = "Discount zone") ∨
    (v = .str "premium" ∧ biasTagText v = "In premium" ∧ zoneText v = "Premium zone") ∨
    ((v ≠ .str "discount" ∧ v ≠ .str "premium") ∧ biasTagText v = "At equilibrium" ∧
      zoneText v = "Equilibrium") := by
  by_cases hs : ∃ s, v = .str s
  · obtain ⟨s, rfl⟩ := hs
    by_cases h1 : s = "discount"
    · left; subst h1; exact ⟨rfl, rfl, rfl⟩
    by_cases h2 : s = "premium"
    · right; left; subst h2; exact ⟨rfl, rfl, rfl⟩
    right; right
    simp [biasTagText, zoneText, JsVal.isStr, h1, h2]
  · right; right
    have hv : ∀ s, v ≠ .str s := fun s e => hs ⟨s, e⟩
    refine ⟨⟨hv _, hv _⟩, ?_⟩
    cases v with
    | str s => exact absurd rfl (hv s)
    | _ => exact ⟨rfl, rfl⟩

/-- C6: for every value of premium_discount the tag of renderBias and the
label of renderPremiumDiscount name the same zone: "In discount" and
"Discount zone" exactly for "discount", "In premium" and "Premium zone"
exactly for "premium", "At equilibrium" and "Equilibrium" for every other
value, "equilibrium" included. -/
theorem zone_texts_agree (h : Host) (data : Data) (st st2 : State) :
    (renderBias h data st).tagText = some (biasTagText data.premium_discount) ∧
    (renderPremiumDiscount h data st2).pdLabel
      = zoneText data.premium_discount ++ "  swing position " ++
          h.toFixed (data.discount_fraction * 100) 1 ++ "% from low to high" ∧
    (biasTagText data.premium_discount = "In discount" ↔
      data.premium_discount = .str "discount") ∧
    (zoneText data.premium_discount = "Discount zone" ↔
      data.premium_discount = .str "discount") ∧
    (biasTagText data.premium_discount = "In premium" ↔
      data.premium_discount = .str "premium") ∧
    (zoneText data.premium_discount = "Premium zone" ↔
      data.premium_discount = .str "premium") ∧
    (biasTagText data.premium_discount = "At equilibrium" ↔
      (data.premium_discount ≠ .str "discount" ∧ data.premium_discount ≠ .str "premium")) ∧
    (zoneText data.premium_discount = "Equilibrium" ↔
      (data.premium_discount ≠ .str "discount" ∧ data.premium_discount ≠ .str "premium")) ∧
    biasTagText (.str "equilibrium") = "At equilibrium" ∧
    zoneText (.str "equilibrium") = "Equilibrium" := by
  refine ⟨rfl, rfl, ?_, ?_, ?_, ?_, ?_, ?_, rfl, rfl⟩ <;>
    rcases zone_cases data.premium_discount with ⟨hv, ht, hz⟩ | ⟨hv, ht, hz⟩ | ⟨hv, ht, hz⟩ <;>
    simp only [ht, hz] <;> simp [hv]

theorem zone_texts_agree_witness :
    biasTagText (.str "sideways") = "At equilibrium" ∧
    zoneText (.str "sideways") = "Equilibrium" :=
  ⟨(zone_texts_agree ⟨fun _ _ => "", fun _ => "", fun _ => "", fun s => s, ""⟩
      ⟨.null, none, none, .str "sideways", 0, none, none, none, none, none, none⟩
      State.initial State.initial).2.2.2.2.2.2.1.mpr (by simp),
   (zone_texts_agree ⟨fun _ _ => "", fun _ => "", fun _ => "", fun s => s, ""⟩
      ⟨.null, none, none, .str "sideways", 0, none, none, none, none, none, none⟩
      State.initial State.initial).2.2.2.2.2.2.2.1.mpr (by simp)⟩

/-- C7: the explanation list holds one item per string of bias_explanation,
the i-th item carrying the i-th string unchanged; it is the fourth and last
child of the bias summary if and only if the explanation is non-empty; a
missing bias_explanation is rendered as the empty list is. -/
theorem renderBias_explanation (h : Host) (data : Data) (st : State) :
    ((renderBias h data st).biasSummary.drop 3
      = if data.bias_explanation.getD [] = [] then []
        else [El.mk "ul" "" "" "" ((data.bias_explanation.getD []).map liText)]) ∧
    ((renderBias h data st).biasSummary.take 3).length = 3 ∧
    ((data.bias_explanation.getD []).map liText).length
      = (data.bias_explanation.getD []).length ∧
    (((data.bias_explanation.getD []).map liText).map El.text
      = data.bias_explanation.getD []) ∧
    (∀ i, (((data.bias_explanation.getD []).map liText).get? i).map El.text
      = (data.bias_explanation.getD []).get? i) ∧
    (renderBias h { data with bias_explanation := none } st
      = renderBias h { data with bias_explanation := some [] } st) := by
  refine ⟨?_, ?_, ?_, ?_, ?_, rfl⟩
  · cases hE : data.bias_explanation.getD [] with
    | nil => simp [renderBias, hE]
    | cons a l => simp [renderBias, hE]
  · simp [renderBias]
  · simp
  · simp [List.map_map, Function.comp_def, liText, El.text]
  · intro i
    simp [List.getElem?_map, liText, El.text, Option.map_map, Function.comp_def]

theorem shown_length (xs : List α) (f : α → El) (placeholder : El) :
    (if xs.length = 0 then [placeholder] else (sliceLast 10 xs).map f).length
      = if xs.length = 0 then 1 else min xs.length 10 := by
  split
  · rfl
  · rw [List.length_map, sliceLast_length]

/-- C10: renderDetails leaves exactly five sections in the details panel, in
the order liquidity levels, fair value gaps, structure events, change of
character, trade setups.  Each of the first four shows one placeholder item
for an empty list and otherwise min(n, 10) items, made of the last
min(n, 10) entries in list order; the trade setups section shows one
placeholder for no setup and otherwise one item per setup, in order. -/
theorem renderDetails_sections (h : Host) (data : Data) (st : State) :
    ((renderDetails h data st).details.map El.html
      = ["<h3>Liquidity levels</h3>", "<h3>Fair value gaps</h3>", "<h3>Structure events</h3>",
          "<h3>Change of character</h3>", "<h3>Trade setups</h3>"]) ∧
    ((renderDetails h data st).sectionItems 0
      = if (data.liquidity_levels.getD []).length = 0
        then [liText "None detected in recent window"]
        else ((data.liquidity_levels.getD []).drop
            ((data.liquidity_levels.getD []).length
              - min (data.liquidity_levels.getD []).length 10)).map
          (fun l => liText (l.type ++ " at " ++ h.toFixed l.price 2))) ∧
    ((renderDetails h data st).sectionItems 1
      = if (data.fair_value_gaps.getD []).length = 0
        then [liText "None detected in recent window"]
        else ((data.fair_value_gaps.getD []).drop
            ((data.fair_value_gaps.getD []).length
              - min (data.fair_value_gaps.getD []).length 10)).map
          (fun f => liText (f.type ++ " gap " ++ h.toFixed f.gap_low 2 ++ " to " ++
            h.toFixed f.gap_high 2))) ∧
    ((renderDetails h data st).sectionItems 2
      = if (data.bos_events.getD []).length = 0
        then [liText "No major structure breaks detected"]
        else ((data.bos_events.getD []).drop
            ((data.bos_events.getD []).length - min (data.bos_events.getD []).length 10)).map
          (fun b => liText (b.type ++ " near " ++ h.toFixed b.price 2))) ∧
    ((renderDetails h data st).sectionItems 3
      = if (data.choch_events.getD []).length = 0
        then [liText "No CHoCH detected"]
        else ((data.choch_events.getD []).drop
            ((data.choch_events.getD []).length
              - min (data.choch_events.getD []).length 10)).map
          (fun c => liText (c.type ++ " at " ++ h.toFixed c.price 2))) ∧
    ((renderDetails h data st).sectionItems 4
      = if (data.trade_setups.getD []).length = 0
        then [liText "No clean setups based on current rules"]
        else (data.trade_setups.getD []).map (tradeItem h)) ∧
    (((renderDetails h data st).sectionItems 0).length
      = if (data.liquidity_levels.getD []).length = 0 then 1
        else min (data.liquidity_levels.getD []).length 10) ∧
    (((renderDetails h data st).sectionItems 1).length
      = if (data.fair_value_gaps.getD []).length = 0 then 1
        else min (data.fair_value_gaps.getD []).length 10) ∧
    (((renderDetails h data st).sectionItems 2).length
      = if (data.bos_events.getD []).length = 0 then 1
        else min (data.bos_events.getD []).length 10) ∧
    (((renderDetails h data st).sectionItems 3).length
      = if (data.choch_events.getD []).length = 0 then 1
        else min (data.choch_events.getD []).length 10) ∧
    (((renderDetails h data st).sectionItems 4).length
      = if (data.trade_setups.getD []).length = 0 then 1
        else (data.trade_setups.getD []).length) := by
  refine ⟨rfl, ?_, ?_, ?_, ?_, rfl, ?_, ?_, ?_, ?_, ?_⟩
  · rw [← sliceLast_eq_drop_min]; rfl
  · rw [← sliceLast_eq_drop_min]; rfl
  · rw [← sliceLast_eq_drop_min]; rfl
  · rw [← sliceLast_eq_drop_min]; rfl
  · exact shown_length _ _ _
  · exact shown_length _ _ _
  · exact shown_length _ _ _
  · exact shown_length _ _ _
  · show (if (data.trade_setups.getD []).length = 0
        then [liText "No clean setups based on current rules"]
        else (data.trade_setups.getD []).map (tradeItem h)).length = _
    split
    · rfl
    · rw [List.length_map]

theorem detail_undefined_or_empty (h : Host) (err : JsVal)
    (hd : err.detail h = .ok .undefined ∨ err.detail h = .ok (.str "")) (done : String)
    (st : State) :
    requestAndRender h done (.failure (.ok err)) st = .error "Request failed" := by
  rcases hd with hd | hd <;> simp [requestAndRender, hd, JsVal.truthy, errorMessage]

theorem detail_nonempty (h : Host) (err : JsVal) (d : String)
    (hd : err.detail h = .ok (.str d)) (hne : d ≠ "") (done : String) (st : State) :
    requestAndRender h done (.failure (.ok err)) st = .error d := by
  simp [requestAndRender, hd, JsVal.truthy, errorMessage, hne]

theorem analyzeSample_failure (h : Host) (err : JsVal) (st : State) (message : String)
    (hreq : ∀ done st2, requestAndRender h done (.failure (.ok err)) st2 = .error message) :
    analyzeSample h (.failure (.ok err)) st = { st with status := "Error  " ++ message } := by
  simp only [analyzeSample, hreq]
  rfl

theorem analyzeFile_failure (h : Host) (err : JsVal) (st : State) (message : String)
    (hreq : ∀ done st2, requestAndRender h done (.failure (.ok err)) st2 = .error message)
    (file : String) (hfile : st.file = some file) :
    analyzeFile h (.failure (.ok err)) st = { st with status := "Error  " ++ message } := by
  cases st
  simp only at hfile
  subst hfile
  simp only [analyzeFile, hreq]
  rfl

/-- C1: on a non-success response with parsed body err, analyzeSample (in
every state, a file chosen or not) and analyzeFile (a file being chosen)
change the status line only: to "Error  " followed by err.detail when that is
a non-empty string, to "Error  Request failed" when it is missing or the empty
string.  Bias summary, premium/discount bar, details panel and chart are left
as they were. -/
theorem analyze_failure_status (h : Host) (err : JsVal) (st : State) :
    (∀ d : String, err.detail h = .ok (.str d) → d ≠ "" →
      analyzeSample h (.failure (.ok err)) st = { st with status := "Error  " ++ d } ∧
      (∀ file : String, st.file = some file →
        analyzeFile h (.failure (.ok err)) st = { st with status := "Error  " ++ d })) ∧
    ((err.detail h = .ok .undefined ∨ err.detail h = .ok (.str "")) →
      analyzeSample h (.failure (.ok err)) st
        = { st with status := "Error  Request failed" } ∧
      (∀ file : String, st.file = some file →
        analyzeFile h (.failure (.ok err)) st
          = { st with status := "Error  Request failed" })) := by
  constructor
  · intro d hd hne
    exact ⟨analyzeSample_failure h err st d (fun done st2 => detail_nonempty h err d hd hne done st2),
      analyzeFile_failure h err st d (fun done st2 => detail_nonempty h err d hd hne done st2)⟩
  · intro hd
    exact ⟨analyzeSample_failure h err st "Request failed"
        (fun done st2 => detail_undefined_or_empty h err hd done st2),
      analyzeFile_failure h err st "Request failed"
        (fun done st2 => detail_undefined_or_empty h err hd done st2)⟩

theorem analyze_failure_status_witness :
    analyzeSample ⟨fun _ _ => "", fun _ => "", fun _ => "", fun s => s, ""⟩
        (.failure (.ok (.obj [("detail", .str "Missing column: close")]))) State.initial
      = { State.initial with status := "Error  " ++ "Missing column: close" } ∧
    analyzeFile ⟨fun _ _ => "", fun _ => "", fun _ => "", fun s => s, ""⟩
        (.failure (.ok (.obj []))) { State.initial with file := some "prices.csv" }
      = { State.initial with file := some "prices.csv", status := "Error  Request failed" } :=
  ⟨((analyze_failure_status ⟨fun _ _ => "", fun _ => "", fun _ => "", fun s => s, ""⟩
        (.obj [("detail", .str "Missing column: close")]) State.initial).1
          "Missing column: close" rfl (by decide)).1,
   ((analyze_failure_status ⟨fun _ _ => "", fun _ => "", fun _ => "", fun s => s, ""⟩
        (.obj []) { State.initial with file := some "prices.csv" }).2
          (Or.inl rfl)).2 "prices.csv" rfl⟩

theorem foldl_removeSeries (ids : List Nat) (ch : Chart) :
    ids.foldl Chart.removeSeries ch
      = { ch with series := ch.series.filter (fun s => decide (s.id ∉ ids)) } := by
  induction ids generalizing ch with
  | nil => simp
  | cons a ids ih =>
    rw [List.foldl_cons, ih]
    simp only [Chart.removeSeries, List.filter_filter]
    congr 1
    apply List.filter_congr
    intro s _
    simp [Bool.and_comm]

theorem clearFvgSeries_eq (st : State) (ch : Chart) (hch : st.chart = some ch) :
    clearFvgSeries st
      = { st with
          chart := some { ch with
            series := List.filter
              (fun s => decide (s.id ∉ st.fvgTopSeries ∧ s.id ∉ st.fvgBottomSeries))
              ch.series },
          fvgTopSeries := [], fvgBottomSeries := [] } := by
  simp only [clearFvgSeries, hch, foldl_removeSeries, List.filter_filter]
  congr 3
  apply List.filter_congr
  intro s _
  simp [Bool.and_comm]

theorem map_setData_of_ne (l : List Series) (id : Nat) (d : SeriesData)
    (h : ∀ s ∈ l, s.id ≠ id) :
    l.map (fun s => if s.id = id then { s with data := d } else s) = l := by
  induction l with
  | nil => rfl
  | cons a l ih =>
    simp only [List.map_cons]
    rw [if_neg (h a (List.mem_cons_self _ _)), ih (fun s hs => h s (List.mem_cons_of_mem _ hs))]

theorem drawFvg_eq (st : State) (ch : Chart) (g : FairValueGap) (hch : st.chart = some ch)
    (hfresh : ∀ s ∈ ch.series, s.id < st.nextId) :
    drawFvg st g
      = { st with
          chart := some { ch with series := ch.series ++ fvgLines st.nextId [g] },
          nextId := st.nextId + 2,
          fvgTopSeries := st.fvgTopSeries ++ [st.nextId],
          fvgBottomSeries := st.fvgBottomSeries ++ [st.nextId + 1] } := by
  have h1 : ∀ s ∈ ch.series, s.id ≠ st.nextId := fun s hs => Nat.ne_of_lt (hfresh s hs)
  have h2 : ∀ s ∈ ch.series, s.id ≠ st.nextId + 1 := fun s hs =>
    Nat.ne_of_lt (Nat.lt_succ_of_lt (hfresh s hs))
  simp [drawFvg, hch, Chart.addSeries, Chart.setData, fvgLines, fvgTopData, fvgBottomData,
    map_setData_of_ne _ _ _ h1, map_setData_of_ne _ _ _ h2]

theorem drawFvg_none (st : State) (g : FairValueGap) (hch : st.chart = none) :
    drawFvg st g = st := by
  simp [drawFvg, hch]

theorem foldl_drawFvg_none (gs : List FairValueGap) (st : State) (hch : st.chart = none) :
    gs.foldl drawFvg st = st := by
  induction gs with
  | nil => rfl
  | cons g gs ih => rw [List.foldl_cons, drawFvg_none st g hch, ih]

theorem fvgLines_id_lt (gs : List FairValueGap) (n : Nat) :
    ∀ s ∈ fvgLines n gs, n ≤ s.id ∧ s.id < n + 2 * gs.length := by
  induction gs generalizing n with
  | nil => intro s hs; simp [fvgLines] at hs
  | cons g gs ih =>
    intro s hs
    simp only [fvgLines, List.mem_cons] at hs
    rcases hs with rfl | rfl | hs
    · exact ⟨by simp, by simp⟩
    · refine ⟨by simp, ?_⟩
      simp only [List.length_cons]
      omega
    · have := ih (n + 2) s hs
      simp only [List.length_cons]
      omega

theorem foldl_drawFvg (gs : List FairValueGap) (st : State) (ch : Chart)
    (hch : st.chart = some ch) (hfresh : ∀ s ∈ ch.series, s.id < st.nextId) :
    gs.foldl drawFvg st
      = { st with
          chart := some { ch with series := ch.series ++ fvgLines st.nextId gs },
          nextId := st.nextId + 2 * gs.length,
          fvgTopSeries := st.fvgTopSeries ++ alternateIds st.nextId gs.length,
          fvgBottomSeries := st.fvgBottomSeries ++ alternateIds (st.nextId + 1) gs.length } := by
  induction gs generalizing st ch with
  | nil =>
    cases st
    simp only at hch
    subst hch
    simp [fvgLines, alternateIds]
  | cons g gs ih =>
    rw [List.foldl_cons, drawFvg_eq st ch g hch hfresh]
    rw [ih _ { ch with series := ch.series ++ fvgLines st.nextId [g] } rfl]
    · simp [fvgLines, alternateIds, List.append_assoc]
      omega
    · intro s hs
      simp only [List.mem_append] at hs
      rcases hs with hs | hs
      · exact Nat.lt_add_right 2 (hfresh s hs)
      · have := fvgLines_id_lt [g] st.nextId s hs
        simpa using this.2

theorem find?_append_of_forall_false (p : Series → Bool) (l1 l2 : List Series)
    (h : ∀ s ∈ l1, p s = false) : (l1 ++ l2).find? p = l2.find? p := by
  induction l1 with
  | nil => rfl
  | cons a l ih =>
    rw [List.cons_append, List.find?_cons, h a (List.mem_cons_self _ _)]
    exact ih (fun s hs => h s (List.mem_cons_of_mem _ hs))

theorem lookup_fvgLines {β : Type} (f : Series → β) (top bottom : FairValueGap → β)
    (htop : ∀ n g,
      f { id := n, options := .line "rgba(56, 189, 248, 0.7)" 1 false,
          data := fvgTopData g } = top g)
    (hbottom : ∀ n g,
      f { id := n, options := .line "rgba(56, 189, 248, 0.3)" 1 true,
          data := fvgBottomData g } = bottom g)
    (gs : List FairValueGap) (n : Nat) (base : List Series)
    (hbase : ∀ s ∈ base, s.id < n) :
    ((alternateIds n gs.length).map
        (fun id => ((base ++ fvgLines n gs).find? (fun s => decide (s.id = id))).map f)
      = gs.map (fun g => some (top g))) ∧
    ((alternateIds (n + 1) gs.length).map
        (fun id => ((base ++ fvgLines n gs).find? (fun s => decide (s.id = id))).map f)
      = gs.map (fun g => some (bottom g))) := by
  induction gs generalizing n base with
  | nil => exact ⟨rfl, rfl⟩
  | cons g gs ih =>
    have hsplit : base ++ fvgLines n (g :: gs)
        = (base ++ fvgLines n [g]) ++ fvgLines (n + 2) gs := by
      simp [fvgLines]
    have hbase2 : ∀ s ∈ base ++ fvgLines n [g], s.id < n + 2 := by
      intro s hs
      simp only [List.mem_append] at hs
      rcases hs with hs | hs
      · exact Nat.lt_add_right 2 (hbase s hs)
      · simpa using (fvgLines_id_lt [g] n s hs).2
    obtain ⟨ihTop, ihBottom⟩ := ih (n + 2) (base ++ fvgLines n [g]) hbase2
    have hTop : ((base ++ fvgLines n (g :: gs)).find? (fun s => decide (s.id = n))).map f
        = some (top g) := by
      rw [find?_append_of_forall_false _ _ _
        (fun s hs => decide_eq_false (Nat.ne_of_lt (hbase s hs)))]
      simp [fvgLines, htop]
    have hBottom : ((base ++ fvgLines n (g :: gs)).find? (fun s => decide (s.id = n + 1))).map f
        = some (bottom g) := by
      rw [find?_append_of_forall_false _ _ _
        (fun s hs => decide_eq_false (Nat.ne_of_lt (Nat.lt_succ_of_lt (hbase s hs))))]
      simp [fvgLines, hbottom]
    constructor
    · simp only [List.length_cons, alternateIds, List.map_cons]
      rw [hTop, hsplit, ihTop]
    · simp only [List.length_cons, alternateIds, List.map_cons]
      rw [hBottom, hsplit]
      have e : n + 1 + 2 = n + 2 + 1 := by omega
      rw [e, ihBottom]

theorem alternateIds_length (n k : Nat) : (alternateIds n k).length = k := by
  induction k generalizing n with
  | zero => rfl
  | succ k ih => simp [alternateIds, ih]

theorem renderFvgs_eq_foldl (fvgs : List FairValueGap) (st : State) :
    renderFvgs fvgs st = (sliceLast 8 fvgs).foldl drawFvg (clearFvgSeries st) := by
  unfold renderFvgs
  simp only
  split
  · rename_i hc
    simp only [Bool.or_eq_true, Option.isNone_iff_eq_none, decide_eq_true_eq] at hc
    rcases hc with hc | hc
    · rw [foldl_drawFvg_none _ _ hc]
    · rw [List.length_eq_zero.mp hc]
      rfl
  · rfl

theorem filter_fresh_subset (l : List Series) (p : Series → Bool) (n : Nat)
    (h : ∀ s ∈ l, s.id < n) : ∀ s ∈ l.filter p, s.id < n :=
  fun s hs => h s (List.mem_of_mem_filter hs)

theorem renderFvgs_eq (fvgs : List FairValueGap) (st : State) (ch : Chart)
    (hch : st.chart = some ch) (hfresh : ∀ s ∈ ch.series, s.id < st.nextId) :
    renderFvgs fvgs st
      = { st with
          chart := some { ch with
            series := List.filter
                (fun s => decide (s.id ∉ st.fvgTopSeries ∧ s.id ∉ st.fvgBottomSeries))
                ch.series
              ++ fvgLines st.nextId (sliceLast 8 fvgs) },
          nextId := st.nextId + 2 * (sliceLast 8 fvgs).length,
          fvgTopSeries := alternateIds st.nextId (sliceLast 8 fvgs).length,
          fvgBottomSeries := alternateIds (st.nextId + 1) (sliceLast 8 fvgs).length } := by
  rw [renderFvgs_eq_foldl, clearFvgSeries_eq st ch hch,
    foldl_drawFvg _ _ _ rfl (filter_fresh_subset _ _ _ hfresh)]
  rfl

/-- C2: with an existing chart, renderFvgs draws exactly min(n, 8) gaps.  The
two lists of series hold min(n, 8) entries each; the i-th top series is the
solid line series through gap_high and the i-th bottom series the dotted line
series through gap_low of the i-th of the last min(n, 8) gaps of the list,
each from the start time to the end time of that gap. -/
theorem renderFvgs_draws_last_eight (fvgs : List FairValueGap) (st : State) (ch : Chart)
    (hch : st.chart = some ch) (hfresh : st.Fresh) :
    (renderFvgs fvgs st).fvgTopSeries.length = min fvgs.length 8 ∧
    (renderFvgs fvgs st).fvgBottomSeries.length = min fvgs.length 8 ∧
    ((renderFvgs fvgs st).fvgTopSeries.map (renderFvgs fvgs st).seriesView
      = (fvgs.drop (fvgs.length - min fvgs.length 8)).map
          (fun g => some (.line "rgba(56, 189, 248, 0.7)" 1 false,
            .line [{ time := mathFloor (msToSeconds g.timestamp_a), value := g.gap_high },
                   { time := mathFloor (msToSeconds g.timestamp_c), value := g.gap_high }]))) ∧
    ((renderFvgs fvgs st).fvgBottomSeries.map (renderFvgs fvgs st).seriesView
      = (fvgs.drop (fvgs.length - min fvgs.length 8)).map
          (fun g => some (.line "rgba(56, 189, 248, 0.3)" 1 true,
            .line [{ time := mathFloor (msToSeconds g.timestamp_a), value := g.gap_low },
                   { time := mathFloor (msToSeconds g.timestamp_c), value := g.gap_low }]))) := by
  have hbase : ∀ s ∈ List.filter
      (fun s => decide (s.id ∉ st.fvgTopSeries ∧ s.id ∉ st.fvgBottomSeries)) ch.series,
      s.id < st.nextId :=
    filter_fresh_subset _ _ _ (hfresh ch hch)
  obtain ⟨hTop, hBottom⟩ :=
    lookup_fvgLines (fun s => (s.options, s.data))
      (fun g => (SeriesOptions.line "rgba(56, 189, 248, 0.7)" 1 false, fvgTopData g))
      (fun g => (SeriesOptions.line "rgba(56, 189, 248, 0.3)" 1 true, fvgBottomData g))
      (fun _ _ => rfl) (fun _ _ => rfl) (sliceLast 8 fvgs) st.nextId _ hbase
  rw [← sliceLast_eq_drop_min, renderFvgs_eq fvgs st ch hch (hfresh ch hch)]
  refine ⟨?_, ?_, hTop, hBottom⟩
  · simp only [alternateIds_length, sliceLast_length]
  · simp only [alternateIds_length, sliceLast_length]

theorem alternateIds_eq_range (n k : Nat) : alternateIds n k = List.range' n k 2 := by
  induction k generalizing n with
  | zero => rfl
  | succ k ih => rw [alternateIds, List.range'_succ, ih]

theorem mem_alternateIds (x n k : Nat) : x ∈ alternateIds n k ↔ ∃ i < k, x = n + 2 * i := by
  rw [alternateIds_eq_range, List.mem_range']

theorem fvgLines_ids (gs : List FairValueGap) (n : Nat) :
    (fvgLines n gs).map Series.id = List.range' n (2 * gs.length) := by
  induction gs generalizing n with
  | nil => rfl
  | cons g gs ih =>
    have e : 2 * (g :: gs).length = 2 * gs.length + 1 + 1 := by
      simp only [List.length_cons]; omega
    rw [e, List.range'_succ, List.range'_succ]
    simp only [fvgLines, List.map_cons, ih]

theorem fvgLines_ids_perm (gs : List FairValueGap) (n : Nat) :
    List.Perm ((fvgLines n gs).map Series.id)
      (alternateIds n gs.length ++ alternateIds (n + 1) gs.length) := by
  induction gs generalizing n with
  | nil => exact List.Perm.refl _
  | cons g gs ih =>
    simp only [fvgLines, List.map_cons, List.length_cons, alternateIds, List.cons_append]
    refine List.Perm.cons _ ?_
    refine List.Perm.trans (List.Perm.cons _ (ih (n + 2))) ?_
    have e : n + 1 + 2 = n + 2 + 1 := by omega
    rw [e]
    exact List.perm_middle.symm

theorem fvgLines_id_mem (gs : List FairValueGap) (n : Nat) :
    ∀ s ∈ fvgLines n gs,
      s.id ∈ alternateIds n gs.length ∨ s.id ∈ alternateIds (n + 1) gs.length := by
  intro s hs
  have hmem : s.id ∈ (fvgLines n gs).map Series.id := List.mem_map_of_mem _ hs
  exact List.mem_append.mp ((fvgLines_ids_perm gs n).mem_iff.mp hmem)

theorem filter_shape (cs ls : Series) (n : Nat) (gs : List FairValueGap)
    (hc : cs.id < n) (hl : ls.id < n) :
    List.filter
        (fun s => decide (s.id ∉ alternateIds n gs.length ∧
          s.id ∉ alternateIds (n + 1) gs.length))
        (cs :: ls :: fvgLines n gs)
      = [cs, ls] := by
  have hout : ∀ x, x < n → x ∉ alternateIds n gs.length ∧
      x ∉ alternateIds (n + 1) gs.length := by
    intro x hx
    constructor
    · intro hm
      obtain ⟨i, _, e⟩ := (mem_alternateIds _ _ _).mp hm
      omega
    · intro hm
      obtain ⟨i, _, e⟩ := (mem_alternateIds _ _ _).mp hm
      omega
  rw [List.filter_cons_of_pos (by simpa using hout _ hc),
    List.filter_cons_of_pos (by simpa using hout _ hl)]
  have hnil : List.filter
      (fun s => decide (s.id ∉ alternateIds n gs.length ∧
        s.id ∉ alternateIds (n + 1) gs.length)) (fvgLines n gs) = [] := by
    rw [List.filter_eq_nil_iff]
    intro s hs
    have := fvgLines_id_mem gs n s hs
    simp only [decide_eq_true_eq, not_and_or, not_not]
    exact this
  rw [hnil]

theorem shape_createChart (st : State) (htop : st.fvgTopSeries = [])
    (hbottom : st.fvgBottomSeries = []) : (createChart st).Shape := by
  refine ⟨_, _, _, st.nextId + 2, [], rfl, rfl, rfl, rfl, ?_, ?_, ?_, ?_, ?_, ?_⟩
  · exact Nat.lt_succ_self _
  · exact Nat.lt_succ_self _
  · exact htop
  · exact hbottom
  · exact Nat.zero_le _
  · rfl

theorem shape_clearFvgSeries (st : State) (hst : st.Shape) : (clearFvgSeries st).Shape := by
  obtain ⟨ch, cs, ls, n, gs, hch, hser, hc, hl, hcl, hln, htop, hbottom, _, hnext⟩ := hst
  rw [clearFvgSeries_eq st ch hch, hser, htop, hbottom,
    filter_shape cs ls n gs (Nat.lt_trans hcl hln) hln]
  refine ⟨_, cs, ls, st.nextId, [], rfl, rfl, hc, hl, hcl, ?_, rfl, rfl, Nat.zero_le _, rfl⟩
  omega

theorem shape_fresh (st : State) (hst : st.Shape) : st.Fresh := by
  obtain ⟨ch, cs, ls, n, gs, hch, hser, _, _, hcl, hln, _, _, _, hnext⟩ := hst
  intro ch2 hch2 s hs
  rw [hch] at hch2
  cases hch2
  rw [hser] at hs
  simp only [List.mem_cons] at hs
  rcases hs with rfl | rfl | hs
  · omega
  · omega
  · have := (fvgLines_id_lt gs n s hs).2
    omega

theorem shape_renderFvgs (fvgs : List FairValueGap) (st : State) (hst : st.Shape) :
    (renderFvgs fvgs st).Shape := by
  have hfresh := shape_fresh st hst
  obtain ⟨ch, cs, ls, n, gs, hch, hser, hc, hl, hcl, hln, htop, hbottom, _, hnext⟩ := hst
  rw [renderFvgs_eq fvgs st ch hch (hfresh ch hch), hser, htop, hbottom,
    filter_shape cs ls n gs (Nat.lt_trans hcl hln) hln]
  refine ⟨_, cs, ls, st.nextId, sliceLast 8 fvgs, rfl, rfl, hc, hl, hcl, ?_, rfl, rfl, ?_, rfl⟩
  · omega
  · rw [sliceLast_length]
    exact Nat.min_le_right _ _

theorem reachable_shape (st : State) (hst : Reachable st) : st.Shape := by
  induction hst with
  | start st htop hbottom => exact shape_createChart st htop hbottom
  | clear st _ ih => exact shape_clearFvgSeries st ih
  | render st fvgs _ ih => exact shape_renderFvgs fvgs st ih

/-- C9: gap lines never accumulate.  In every state reached from createChart
by calls of clearFvgSeries and renderFvgs the two gap lists have the same
length, at most 8, and the series the chart holds, each once, are the candle
series, the liquidity series and exactly the members of the two lists. -/
theorem reachable_gap_lines (st : State) (hst : Reachable st) :
    st.fvgTopSeries.length = st.fvgBottomSeries.length ∧
    st.fvgTopSeries.length ≤ 8 ∧
    ∃ c l, st.candleSeries = some c ∧ st.liquiditySeries = some l ∧
      st.chartIds.Nodup ∧
      List.Perm st.chartIds (c :: l :: (st.fvgTopSeries ++ st.fvgBottomSeries)) ∧
      ∀ id, (id ∈ st.chartIds ∧ id ≠ c ∧ id ≠ l) ↔
        (id ∈ st.fvgTopSeries ∨ id ∈ st.fvgBottomSeries) := by
  obtain ⟨ch, cs, ls, n, gs, hch, hser, hc, hl, hcl, hln, htop, hbottom, hlen, _⟩ :=
    reachable_shape st hst
  have hids : st.chartIds = cs.id :: ls.id :: List.range' n (2 * gs.length) := by
    simp only [State.chartIds, hch, hser, List.map_cons, fvgLines_ids]
  have hnodup : st.chartIds.Nodup := by
    rw [hids]
    refine List.nodup_cons.mpr ⟨?_, List.nodup_cons.mpr ⟨?_, List.nodup_range' _ _⟩⟩
    · simp only [List.mem_cons, List.mem_range'_1]
      omega
    · simp only [List.mem_range'_1]
      omega
  have hperm : List.Perm st.chartIds
      (cs.id :: ls.id :: (st.fvgTopSeries ++ st.fvgBottomSeries)) := by
    rw [htop, hbottom]
    simp only [State.chartIds, hch, hser, List.map_cons]
    exact List.Perm.cons _ (List.Perm.cons _ (fvgLines_ids_perm gs n))
  refine ⟨?_, ?_, cs.id, ls.id, hc, hl, hnodup, hperm, ?_⟩
  · rw [htop, hbottom, alternateIds_length, alternateIds_length]
  · rw [htop, alternateIds_length]
    exact hlen
  · intro id
    have hnodup2 := hperm.nodup_iff.mp hnodup
    have hcnot : cs.id ∉ st.fvgTopSeries ++ st.fvgBottomSeries := fun hm =>
      (List.nodup_cons.mp hnodup2).1 (List.mem_cons_of_mem _ hm)
    have hlnot : ls.id ∉ st.fvgTopSeries ++ st.fvgBottomSeries :=
      (List.nodup_cons.mp (List.nodup_cons.mp hnodup2).2).1
    rw [hperm.mem_iff]
    simp only [List.mem_cons, List.mem_append] at hcnot hlnot ⊢
    constructor
    · rintro ⟨h1 | h1 | h1, h2, h3⟩
      · exact absurd h1 h2
      · exact absurd h1 h3
      · exact h1
    · intro h1
      refine ⟨Or.inr (Or.inr h1), ?_, ?_⟩
      · rintro rfl; exact hcnot h1
      · rintro rfl; exact hlnot h1

theorem reachable_gap_lines_witness :
    (renderFvgs [gapAt 1000 3000, gapAt 2000 4000] (createChart State.initial)).fvgTopSeries.length
      = (renderFvgs [gapAt 1000 3000, gapAt 2000 4000]
          (createChart State.initial)).fvgBottomSeries.length :=
  (reachable_gap_lines _
    (Reachable.render _ [gapAt 1000 3000, gapAt 2000 4000]
      (Reachable.start State.initial rfl rfl))).1

theorem renderFvgs_draws_last_eight_witness :
    (renderFvgs
        [gapAt 1000 3000, gapAt 2000 4000, gapAt 3000 5000, gapAt 4000 6000, gapAt 5000 7000,
          gapAt 6000 8000, gapAt 7000 9000, gapAt 8000 10000, gapAt 9000 11000]
        (createChart State.initial)).fvgTopSeries.length = 8 :=
  (renderFvgs_draws_last_eight
    [gapAt 1000 3000, gapAt 2000 4000, gapAt 3000 5000, gapAt 4000 6000, gapAt 5000 7000,
      gapAt 6000 8000, gapAt 7000 9000, gapAt 8000 10000, gapAt 9000 11000]
    (createChart State.initial) _ rfl
    (shape_fresh _ (shape_createChart State.initial rfl rfl))).1

theorem sliceLast_split (k : Nat) (xs : List α) :
    xs = xs.take (xs.length - k) ++ sliceLast k xs :=
  (List.take_append_drop _ xs).symm

/-- The tail `renderFvgs` keeps lies after the entries it leaves out: in a
list whose timestamp_c strictly increases, every kept gap has a later
timestamp_c than every gap left out. -/
theorem sliceLast_later_of_increasing (fvgs : List FairValueGap)
    (hord : fvgs.Pairwise (fun a b => a.timestamp_c < b.timestamp_c)) :
    ∀ g ∈ sliceLast 8 fvgs, ∀ k ∈ fvgs.take (fvgs.length - 8),
      k.timestamp_c < g.timestamp_c := by
  intro g hg k hk
  have hsplit := sliceLast_split 8 fvgs
  rw [hsplit] at hord
  exact (List.pairwise_append.mp hord).2.2 k hk g hg

/-- C3 at the failing input: given nine gaps ordered most recent first (end
times 11, 10, ..., 3 seconds), renderFvgs on a fresh chart leaves eighteen
series in the chart, the candle series, the liquidity series and the top and
bottom line of eight gaps.  The lines drawn end at 10, 9, ..., 3 seconds: they
are those of the eight oldest gaps, and no series of the chart is the line of
the most recent gap, from 9 to 11 seconds. -/
theorem renderFvgs_recent_first_draws_oldest :
    nineGapsRecentFirst.Pairwise (fun a b => b.timestamp_c < a.timestamp_c) ∧
    ((renderFvgs nineGapsRecentFirst (createChart State.initial)).fvgTopSeries.map
        (fun id => ((renderFvgs nineGapsRecentFirst (createChart State.initial)).seriesData
          id).map SeriesData.times)
      = [some [8, 10], some [7, 9], some [6, 8], some [5, 7], some [4, 6], some [3, 5],
          some [2, 4], some [1, 3]]) ∧
    ((renderFvgs nineGapsRecentFirst (createChart State.initial)).fvgBottomSeries.map
        (fun id => ((renderFvgs nineGapsRecentFirst (createChart State.initial)).seriesData
          id).map SeriesData.times)
      = [some [8, 10], some [7, 9], some [6, 8], some [5, 7], some [4, 6], some [3, 5],
          some [2, 4], some [1, 3]]) ∧
    (renderFvgs nineGapsRecentFirst (createChart State.initial)).chartIds.length = 18 ∧
    ((renderFvgs nineGapsRecentFirst (createChart State.initial)).chartIds.map
        (fun id => ((renderFvgs nineGapsRecentFirst (createChart State.initial)).seriesData
          id).map SeriesData.times)
      = [some [], some [], some [8, 10], some [8, 10], some [7, 9], some [7, 9], some [6, 8],
          some [6, 8], some [5, 7], some [5, 7], some [4, 6], some [4, 6], some [3, 5],
          some [3, 5], some [2, 4], some [2, 4], some [1, 3], some [1, 3]]) := by
  have hfloor : ∀ s : Int, mathFloor (msToSeconds (1000 * s)) = (s : ℚ) := by
    intro s
    have e : msToSeconds (1000 * s) = (s : ℚ) := by
      unfold msToSeconds
      push_cast
      field_simp
    rw [e, mathFloor, Int.floor_intCast]
  have h1 := hfloor 1
  have h2 := hfloor 2
  have h3 := hfloor 3
  have h4 := hfloor 4
  have h5 := hfloor 5
  have h6 := hfloor 6
  have h7 := hfloor 7
  have h8 := hfloor 8
  have h9 := hfloor 9
  have h10 := hfloor 10
  norm_num at h1 h2 h3 h4 h5 h6 h7 h8 h9 h10
  refine ⟨by decide, ?_, ?_, ?_, ?_⟩ <;>
    simp [renderFvgs, nineGapsRecentFirst, clearFvgSeries, createChart, State.initial, drawFvg,
      sliceLast, Chart.addSeries, Chart.setData, Chart.removeSeries, State.seriesData,
      State.chartIds, Chart.find, gapAt, SeriesData.times, h1, h2, h3, h4, h5, h6, h7, h8,
      h9, h10]

theorem mathFloor_msToSeconds_of_whole (s : Int) :
    mathFloor (msToSeconds (1000 * s)) = msToSeconds (1000 * s) := by
  have e : msToSeconds (1000 * s) = (s : ℚ) := by
    unfold msToSeconds
    push_cast
    field_simp
  rw [e, mathFloor, Int.floor_intCast]

/-- C8 at the failing input: with candles at 1500, 2500 and 3500 ms and a gap
anchored at the first and the third, renderChart places the candles at 3/2,
5/2 and 7/2 seconds and both lines of the gap from 1 to 3 seconds. -/
theorem renderChart_half_second_anchor :
    ((renderChart halfSecondData (createChart State.initial)).candleSeries.bind
        (renderChart halfSecondData (createChart State.initial)).seriesData).map
        SeriesData.times = some [3 / 2, 5 / 2, 7 / 2] ∧
    ((renderChart halfSecondData (createChart State.initial)).fvgTopSeries.map
        (fun id => ((renderChart halfSecondData (createChart State.initial)).seriesData
          id).map SeriesData.times)) = [some [1, 3]] ∧
    ((renderChart halfSecondData (createChart State.initial)).fvgBottomSeries.map
        (fun id => ((renderChart halfSecondData (createChart State.initial)).seriesData
          id).map SeriesData.times)) = [some [1, 3]] := by
  have h1 : mathFloor (msToSeconds 1500) = 1 := by
    norm_num [mathFloor, msToSeconds, Int.floor_eq_iff]
  have h3 : mathFloor (msToSeconds 3500) = 3 := by
    norm_num [mathFloor, msToSeconds, Int.floor_eq_iff]
  simp [renderChart, halfSecondData, setSeriesData, renderFvgs, clearFvgSeries, createChart,
    State.initial, drawFvg, sliceLast, Chart.addSeries, Chart.setData, Chart.removeSeries,
    Chart.fitContent, State.seriesData, Chart.find, gapAt, candleAt, candlePoint,
    SeriesData.times, h1, h3]
  norm_num [msToSeconds]

end SmartMoneyDashboard
